import Mathlib

/-!
# Verification of the roboot dependency-injection container

Shallow embedding of `src/roboot.ts`: a container that resolves a graph of
provider classes (caching one instance per provider identity), detects
synchronous circular dependencies with placeholder objects, patches the
placeholders after root resolution, and then runs concurrent boot/dispose
lifecycle hooks over a microtask queue with explicit cross-instance waits
(`booted` / `disposed`).

Provider classes are modelled as numeric identities mapped by an environment
to a `ClassSpec` (field initializers, `provide()` result, optional hooks).
JavaScript objects live in an explicit heap so that reference identity,
enumerable-field scanning and in-place mutation are faithful.  Promises and
the microtask queue are modelled explicitly so the scheduling claims about
`bootAll` / `dispose` can be settled on concrete programs.
-/

namespace Roboot

/-- Provider-class identity (a constructor reference in the source). -/
abbrev ClassId := Nat

/-- A JavaScript runtime value as far as the container observes it:
an object reference into the heap, `undefined`, or an opaque primitive. -/
inductive Value where
  | obj (r : Nat)
  | undef
  | prim (n : Nat)
deriving DecidableEq, Repr

/-- A heap object: its constructor class (`none` for a plain `{}` placeholder)
and its enumerable own fields in insertion order. -/
structure Obj where
  cls : Option ClassId
  fields : List Value
deriving DecidableEq, Repr

/-- One record of `unresolvedCircular`: `{ temp, Dependent, Dependency }`. -/
structure UC where
  temp : Value
  dependent : ClassId
  dependency : ClassId
deriving DecidableEq, Repr

/-- Status of a promise. Rejection carries an error code. -/
inductive PStat where
  | pending
  | fulfilled
  | rejected (e : Nat)
deriving DecidableEq, Repr

/-- Observable events: a number pushed by a hook, and the settlement of the
aggregate `Promise.all` of a phase. -/
inductive Event where
  | push (n : Nat)
  | aggSettled (st : PStat)
deriving DecidableEq, Repr

/-- A lifecycle hook body: a straight-line async function that can push
numbers, await a fresh resolved promise (`await Promise.resolve()`), await
`booted(D)` / `disposed(D)`, throw, or return. -/
inductive HookProg where
  | ret
  | push (n : Nat) (k : HookProg)
  | awaitTick (k : HookProg)
  | awaitBooted (d : ClassId) (k : HookProg)
  | awaitDisposed (d : ClassId) (k : HookProg)
  | throwE (e : Nat)
deriving DecidableEq, Repr

/-- A promise reaction, run as a microtask when the promise settles:
resume a suspended hook (whose own promise is `hp`), settle another promise
with the same status (then-adoption), or do `Promise.all` bookkeeping. -/
inductive Reaction where
  | resumeHook (hp : Nat) (k : HookProg)
  | fulfillWith (t : Nat)
  | allReact (t : Nat)
deriving DecidableEq, Repr

/-- A microtask job: a scheduled reaction with the settled status, the
`Promise.resolve().then(() => provider?.hook?.(instance))` callback for one
instance, or a `PromiseResolveThenableJob` linking `target` to `src`. -/
inductive Job where
  | react (r : Reaction) (st : PStat)
  | thenStart (target : Nat) (inst : Value) (phase : Bool)
  | thenableJob (target : Nat) (src : Nat)
deriving DecidableEq, Repr

/-- A promise record: status, registered reactions, remaining-count for
`Promise.all` targets, and whether this is a phase aggregate (whose
settlement is recorded in the event log). -/
structure PromRec where
  stat : PStat
  reactions : List Reaction
  remaining : Nat
  isAgg : Bool
deriving DecidableEq, Repr

/-- Static description of a provider class: field initializers
(`f = this.use(D)` in declaration order), the `provide()` result (`none`
means "return `this`", as in `Service`), and the optional lifecycle hooks. -/
structure ClassSpec where
  deps : List ClassId
  provide : Option Value
  bootHook : Option HookProg
  disposeHook : Option HookProg

/-- The environment: which class spec each identity denotes. -/
abbrev Env := ClassId → ClassSpec

/-- The whole mutable state: the container's private fields from the source,
the object heap, the promise store, the microtask queue, and the event log. -/
structure S where
  heap : List Obj
  finalized : Bool
  bindings : List (ClassId × ClassId)
  instances : List (ClassId × Value)
  instanceProviders : List (Value × Value)
  useStack : List ClassId
  unresolvedCircular : List UC
  bootedPromises : Option (List (ClassId × Nat))
  disposedPromises : Option (List (ClassId × Nat))
  promises : List PromRec
  queue : List Job
  log : List Event
deriving DecidableEq, Repr

/-- The empty container (a fresh `new Container()`). -/
def init : S :=
  { heap := [], finalized := false, bindings := [], instances := [],
    instanceProviders := [], useStack := [], unresolvedCircular := [],
    bootedPromises := none, disposedPromises := none,
    promises := [], queue := [], log := [] }

/-- `Map.get`: the value at the first matching key, if present. -/
def mapGet [DecidableEq α] : List (α × β) → α → Option β
  | [], _ => none
  | (k, v) :: rest, k' => if k = k' then some v else mapGet rest k'

/-- `Map.has`. -/
def mapHas [DecidableEq α] (m : List (α × β)) (k : α) : Bool :=
  (mapGet m k).isSome

/-- `Map.set`: replace the value at an existing key in place, else append. -/
def mapSet [DecidableEq α] : List (α × β) → α → β → List (α × β)
  | [], k, v => [(k, v)]
  | (k0, v0) :: rest, k, v =>
    if k0 = k then (k0, v) :: rest else (k0, v0) :: mapSet rest k v

/-- Append a value to the enumerable fields of heap object `r`
(a field initializer storing its result on `this`). -/
def appendField (s : S) (r : Nat) (v : Value) : S :=
  match s.heap.get? r with
  | some o => { s with heap := s.heap.set r { o with fields := o.fields ++ [v] } }
  | none => s

/-- Error conditions surfaced by container operations. -/
inductive Err where
  | alreadyInstantiated
  | alreadyFinalized
  | hookFailure (e : Nat)
deriving DecidableEq, Repr

deriving instance DecidableEq for Except

/-- `Container.bind`: reject when the provider already has a cached instance,
otherwise record the override and return the (updated) container. -/
def bind (s : S) (Provider Implementation : ClassId) : Except Err S :=
  if mapHas s.instances Provider then
    Except.error Err.alreadyInstantiated
  else
    Except.ok { s with bindings := mapSet s.bindings Provider Implementation }

/-- The kind of synchronous resolver step being executed: a `use` lookup,
a `make` construction, or the field initializers of an object under
construction. -/
inductive SyncCall where
  | useC (Dependency : ClassId) (Dependent : Option ClassId)
  | makeC (Dependency : ClassId)
  | fieldsC (r : Nat) (Impl : ClassId) (ds : List ClassId)

/-- The synchronous resolver, fuel-bounded (`none` = fuel ran out; every
recursive call strictly decreases the fuel, so any terminating run is
reproduced with enough fuel).

* `useC` is `Container.use`: return the cached instance when the lookup is
  not `undefined`; otherwise either hand out a placeholder for a detected
  cycle (requested identity on the resolution stack and a requester
  supplied), or push the requester, construct via `make`, pop, and cache
  the result.
* `makeC` is `Container.make`: pick the bound override (or the identity
  itself), allocate the provider object, run its field initializers, call
  `provide()`, and record the produced-value → provider-object mapping.
* `fieldsC` runs the field initializers of the object under construction:
  each declared dependency is resolved with `this.use(D)` (requester =
  `this.constructor`, i.e. the implementation class) and stored as the next
  enumerable field; its result value is a dummy `undefined`. -/
def syncRun (env : Env) : Nat → S → SyncCall → Option (Value × S)
  | 0, _, _ => none
  | fuel + 1, s, SyncCall.useC Dependency Dependent =>
    let instance0 := (mapGet s.instances Dependency).getD Value.undef
    if instance0 ≠ Value.undef then
      some (instance0, s)
    else if Dependency ∈ s.useStack ∧ Dependent.isSome then
      let temp := Value.obj s.heap.length
      some (temp,
        { s with heap := s.heap ++ [⟨none, []⟩],
                 unresolvedCircular := s.unresolvedCircular ++
                   [⟨temp, Dependent.getD 0, Dependency⟩] })
    else
      let s1 := match Dependent with
        | some d => { s with useStack := s.useStack ++ [d] }
        | none => s
      match syncRun env fuel s1 (SyncCall.makeC Dependency) with
      | none => none
      | some (v, s2) =>
        let s3 := match Dependent with
          | some _ => { s2 with useStack := s2.useStack.dropLast }
          | none => s2
        some (v, { s3 with instances := mapSet s3.instances Dependency v })
  | fuel + 1, s, SyncCall.makeC Dependency =>
    let Implementation := (mapGet s.bindings Dependency).getD Dependency
    let r := s.heap.length
    let s1 := { s with heap := s.heap ++ [⟨some Implementation, []⟩] }
    match syncRun env fuel s1 (SyncCall.fieldsC r Implementation
        (env Implementation).deps) with
    | none => none
    | some (_, s2) =>
      let v := match (env Implementation).provide with
        | none => Value.obj r
        | some pv => pv
      let ips := mapSet s2.instanceProviders v (Value.obj r)
      some (v, { s2 with instanceProviders := ips })
  | _ + 1, s, SyncCall.fieldsC _ _ [] => some (Value.undef, s)
  | fuel + 1, s, SyncCall.fieldsC r Impl (d :: ds) =>
    match syncRun env fuel s (SyncCall.useC d (some Impl)) with
    | none => none
    | some (v, s1) =>
      syncRun env fuel (appendField s1 r v) (SyncCall.fieldsC r Impl ds)

/-- `Container.use` (see `syncRun`). -/
def use (env : Env) (fuel : Nat) (s : S) (Dependency : ClassId)
    (Dependent : Option ClassId) : Option (Value × S) :=
  syncRun env fuel s (SyncCall.useC Dependency Dependent)

/-- `Container.make` (see `syncRun`). -/
def make (env : Env) (fuel : Nat) (s : S) (Dependency : ClassId) :
    Option (Value × S) :=
  syncRun env fuel s (SyncCall.makeC Dependency)

/-- The field-initializer pass of `Container.make` (see `syncRun`). -/
def initFields (env : Env) (fuel : Nat) (s : S) (r : Nat) (Impl : ClassId)
    (ds : List ClassId) : Option S :=
  (syncRun env fuel s (SyncCall.fieldsC r Impl ds)).map Prod.snd


/-- Replace the first field equal to `temp` with `dep` (the
`for property in dependant` scan with `break` at the first match). -/
def patchFirst : List Value → Value → Value → List Value
  | [], _, _ => []
  | f :: fs, temp, dep =>
    if f = temp then dep :: fs else f :: patchFirst fs temp dep

/-- One iteration of the `resolveCircular` loop: look up the requester and
requested instances and patch the requester's first field holding the
placeholder.  A requester instance that is absent or not an object has no
enumerable fields, so nothing happens. -/
def resolveCircularStep (s : S) (u : UC) : S :=
  match mapGet s.instances u.dependent with
  | some (Value.obj r) =>
    match s.heap.get? r with
    | some o =>
      let dependency := (mapGet s.instances u.dependency).getD Value.undef
      let o' : Obj := { o with fields := patchFirst o.fields u.temp dependency }
      { s with heap := s.heap.set r o' }
    | none => s
  | _ => s

/-- `Container.resolveCircular`: patch every pending record, then clear the
pending list. -/
def resolveCircular (s : S) : S :=
  let s' := s.unresolvedCircular.foldl resolveCircularStep s
  { s' with unresolvedCircular := [] }

/-! ## The promise store and the microtask queue -/

/-- Error code of `"Cannot call booted()/disposed() outside of boot()/dispose()"`. -/
def errPhaseNotActive : Nat := 100

/-- Error code of `"Cannot wait for unused ... to boot/dispose"`. -/
def errUnusedDependency : Nat := 101

/-- Allocate a fresh promise; returns its id. -/
def newProm (s : S) (st : PStat) (remaining : Nat) (isAgg : Bool) : Nat × S :=
  (s.promises.length,
   { s with promises := s.promises ++ [⟨st, [], remaining, isAgg⟩] })

/-- The status of promise `p` (freshly indexed ids only). -/
def promStat (s : S) (p : Nat) : PStat :=
  ((s.promises.get? p).map PromRec.stat).getD PStat.pending

/-- Push a job onto the back of the microtask queue. -/
def enqueue (s : S) (j : Job) : S := { s with queue := s.queue ++ [j] }

/-- Settle promise `p`: record the status, enqueue one reaction job per
registered reaction in order, and — for a phase aggregate — log the
settlement.  A no-op on an already-settled promise. -/
def settle (s : S) (p : Nat) (st : PStat) : S :=
  match s.promises.get? p with
  | some pr =>
    match pr.stat with
    | PStat.pending =>
      let s1 := { s with
        promises := s.promises.set p { pr with stat := st, reactions := [] },
        queue := s.queue ++ pr.reactions.map (fun r => Job.react r st) }
      if pr.isAgg then { s1 with log := s1.log ++ [Event.aggSettled st] } else s1
    | _ => s
  | none => s

/-- Register a reaction on promise `p`: queued immediately when `p` is
already settled, stored on the promise otherwise. -/
def onSettled (s : S) (p : Nat) (r : Reaction) : S :=
  match s.promises.get? p with
  | some pr =>
    match pr.stat with
    | PStat.pending =>
      { s with promises :=
          s.promises.set p { pr with reactions := pr.reactions ++ [r] } }
    | st => enqueue s (Job.react r st)
  | none => s

/-- `Injectable.booted(D)`: a fresh rejected promise when no boot phase has
started (`bootedPromises` unset) or when `D` has no entry in the table,
otherwise `D`'s phase-completion promise. -/
def bootedP (s : S) (d : ClassId) : Nat × S :=
  match s.bootedPromises with
  | none => newProm s (PStat.rejected errPhaseNotActive) 0 false
  | some tbl =>
    match mapGet tbl d with
    | some p => (p, s)
    | none => newProm s (PStat.rejected errUnusedDependency) 0 false

/-- `Injectable.disposed(D)`, symmetric to `bootedP`. -/
def disposedP (s : S) (d : ClassId) : Nat × S :=
  match s.disposedPromises with
  | none => newProm s (PStat.rejected errPhaseNotActive) 0 false
  | some tbl =>
    match mapGet tbl d with
    | some p => (p, s)
    | none => newProm s (PStat.rejected errUnusedDependency) 0 false

/-- Execute a hook body synchronously until it returns, throws, or suspends
at an `await`; `hp` is the promise the async function returned.  An `await`
registers a resume reaction on the awaited promise (one microtask turn for
an already-resolved promise, as for native promises). -/
def runBody (env : Env) : S → Nat → HookProg → S
  | s, hp, HookProg.ret => settle s hp PStat.fulfilled
  | s, hp, HookProg.throwE e => settle s hp (PStat.rejected e)
  | s, hp, HookProg.push n k =>
    runBody env { s with log := s.log ++ [Event.push n] } hp k
  | s, hp, HookProg.awaitTick k =>
    let q := newProm s PStat.fulfilled 0 false
    onSettled q.2 q.1 (Reaction.resumeHook hp k)
  | s, hp, HookProg.awaitBooted d k =>
    let p := bootedP s d
    onSettled p.2 p.1 (Reaction.resumeHook hp k)
  | s, hp, HookProg.awaitDisposed d k =>
    let p := disposedP s d
    onSettled p.2 p.1 (Reaction.resumeHook hp k)

/-- The hook the `then` callback would invoke for a cached instance:
`this.instanceProviders.get(instance)?.boot?.` (or `dispose` when `phase`
is true).  `none` when the provider is unknown or declares no hook. -/
def hookOf (env : Env) (s : S) (inst : Value) (phase : Bool) : Option HookProg :=
  match mapGet s.instanceProviders inst with
  | some (Value.obj r) =>
    match s.heap.get? r with
    | some o =>
      match o.cls with
      | some cid =>
        if phase then (env cid).disposeHook else (env cid).bootHook
      | none => none
    | none => none
  | _ => none

/-- Run one microtask job. -/
def processJob (env : Env) (s : S) : Job → S
  | Job.thenStart target inst phase =>
    match hookOf env s inst phase with
    | none => settle s target PStat.fulfilled
    | some prog =>
      let hs := newProm s PStat.pending 0 false
      let s2 := runBody env hs.2 hs.1 prog
      enqueue s2 (Job.thenableJob target hs.1)
  | Job.thenableJob target src => onSettled s src (Reaction.fulfillWith target)
  | Job.react r st =>
    match r with
    | Reaction.resumeHook hp k =>
      match st with
      | PStat.fulfilled => runBody env s hp k
      | PStat.rejected e => settle s hp (PStat.rejected e)
      | PStat.pending => s
    | Reaction.fulfillWith t => settle s t st
    | Reaction.allReact t =>
      match st with
      | PStat.rejected e => settle s t (PStat.rejected e)
      | _ =>
        match s.promises.get? t with
        | some pr =>
          let pr' : PromRec := { pr with remaining := pr.remaining - 1 }
          let s1 := { s with promises := s.promises.set t pr' }
          if pr.remaining ≤ 1 then settle s1 t PStat.fulfilled else s1
        | none => s

/-- Drain the microtask queue (FIFO), bounded by fuel. -/
def runQueue (env : Env) : Nat → S → Option S
  | 0, s =>
    match s.queue with
    | [] => some s
    | _ => none
  | fuel + 1, s =>
    match s.queue with
    | [] => some s
    | j :: rest => runQueue env fuel (processJob env { s with queue := rest } j)

/-- Create one phase-completion promise per cached instance (in instance
insertion order) and enqueue its `Promise.resolve().then(...)` start job;
returns the phase table. -/
def buildPhase (phase : Bool) : List (ClassId × Value) → S → List (ClassId × Nat) × S
  | [], s => ([], s)
  | (cid, inst) :: rest, s =>
    let p := newProm s PStat.pending 0 false
    let s2 := enqueue p.2 (Job.thenStart p.1 inst phase)
    let rest' := buildPhase phase rest s2
    ((cid, p.1) :: rest'.1, rest'.2)

/-- Subscribe the aggregate promise to every entry of a phase table
(`Promise.all` over the table's values). -/
def subscribeAll (pAll : Nat) : List (ClassId × Nat) → S → S
  | [], s => s
  | (_, p) :: rest, s => subscribeAll pAll rest (onSettled s p (Reaction.allReact pAll))

/-- `Container.bootAll` up to its `await`: publish `bootedPromises` (one
entry per cached instance) and build the `Promise.all` aggregate; all start
jobs land in the same scheduling tick. -/
def bootAllStart (s : S) : Nat × S :=
  let b := buildPhase false s.instances s
  let tbl := b.1
  let s2 := { b.2 with bootedPromises := some tbl }
  let a := newProm s2 PStat.pending tbl.length true
  let pAll := a.1
  let s4 := subscribeAll pAll tbl a.2
  let s5 := if tbl.length = 0 then settle s4 pAll PStat.fulfilled else s4
  (pAll, s5)

/-- `Container.dispose` up to its `await`: publish a freshly built
`disposedPromises` table (unconditionally — there is no guard) and its
aggregate. -/
def disposeStart (s : S) : Nat × S :=
  let b := buildPhase true s.instances s
  let tbl := b.1
  let s2 := { b.2 with disposedPromises := some tbl }
  let a := newProm s2 PStat.pending tbl.length true
  let pAll := a.1
  let s4 := subscribeAll pAll tbl a.2
  let s5 := if tbl.length = 0 then settle s4 pAll PStat.fulfilled else s4
  (pAll, s5)

/-- `Container.boot`: reject a second call with *AlreadyFinalized* before
doing anything; otherwise set the flag, resolve the root, patch circular
placeholders, start the boot phase, and drain the microtask queue.  The
result mirrors the promise `boot` returns: the root instance on success,
the first hook failure otherwise (`none` = out of fuel or deadlock). -/
def boot (env : Env) (fuel : Nat) (s : S) (Root : ClassId) :
    Option (S × Except Err Value) :=
  if s.finalized then some (s, Except.error Err.alreadyFinalized)
  else
    match use env fuel { s with finalized := true } Root none with
    | none => none
    | some (v, s1) =>
      let s2 := resolveCircular s1
      let b := bootAllStart s2
      let pAll := b.1
      match runQueue env fuel b.2 with
      | none => none
      | some s4 =>
        match promStat s4 pAll with
        | PStat.fulfilled => some (s4, Except.ok v)
        | PStat.rejected e => some (s4, Except.error (Err.hookFailure e))
        | PStat.pending => none

/-- `Container.dispose` in full: start the dispose phase and drain the
queue; settles like the promise `dispose` returns. -/
def dispose (env : Env) (fuel : Nat) (s : S) : Option (S × Except Err Unit) :=
  let b := disposeStart s
  let pAll := b.1
  match runQueue env fuel b.2 with
  | none => none
  | some s2 =>
    match promStat s2 pAll with
    | PStat.fulfilled => some (s2, Except.ok ())
    | PStat.rejected e => some (s2, Except.error (Err.hookFailure e))
    | PStat.pending => none

/-- The numbers pushed by hooks, in order, extracted from the event log. -/
def pushes (l : List Event) : List Nat :=
  l.filterMap (fun e => match e with
    | Event.push n => some n
    | _ => none)

/-! ## Concrete provider environments for the testable properties -/

/-- A plain `Service` with no dependencies and no hooks. -/
def plainService : ClassSpec :=
  { deps := [], provide := none, bootHook := none, disposeHook := none }

/-- The final state of a run, when it completed. -/
def finalS (r : Option (S × Except Err Value)) : Option S := r.map Prod.fst

/-- The outcome of a run, when it completed. -/
def outcome (r : Option (S × Except Err Value)) : Option (Except Err Value) :=
  r.map Prod.snd

/-- The cached instance of class `cid`. -/
def instOf (s : S) (cid : ClassId) : Option Value := mapGet s.instances cid

/-- The class (constructor) of the cached instance of `cid`, when that
instance is a heap object: `some none` means a plain placeholder object. -/
def instCls (s : S) (cid : ClassId) : Option (Option ClassId) :=
  match mapGet s.instances cid with
  | some (Value.obj r) => (s.heap.get? r).map Obj.cls
  | _ => none

/-- Field `i` of the cached instance of `cid`. -/
def instField (s : S) (cid : ClassId) (i : Nat) : Option Value :=
  match mapGet s.instances cid with
  | some (Value.obj r) => (s.heap.get? r).bind (fun o => o.fields.get? i)
  | _ => none

/-- Mutually circular services `A = 0` (field `b = this.use(B)`) and
`B = 1` (field `a = this.use(A)`), with root `2` declaring `a` then `b`. -/
def envC1 : Env := fun c =>
  match c with
  | 0 => { plainService with deps := [1] }
  | 1 => { plainService with deps := [0] }
  | 2 => { plainService with deps := [0, 1] }
  | _ => plainService

/-- As `envC1` but the root constructs `B` first (`deps := [1, 0]`). -/
def envC1r : Env := fun c =>
  match c with
  | 0 => { plainService with deps := [1] }
  | 1 => { plainService with deps := [0] }
  | 2 => { plainService with deps := [1, 0] }
  | _ => plainService

/-- Boot/dispose ordering scenario: `D = 0` (hook: push 1, yield, yield,
push 3) and `P = 1` using `D` (hook: push 2, await `booted`/`disposed` of
`D`, push 4). -/
def envC2 : Env := fun c =>
  match c with
  | 0 => { deps := [],
           provide := none,
           bootHook := some (HookProg.push 1 (HookProg.awaitTick
             (HookProg.awaitTick (HookProg.push 3 HookProg.ret)))),
           disposeHook := some (HookProg.push 1 (HookProg.awaitTick
             (HookProg.awaitTick (HookProg.push 3 HookProg.ret)))) }
  | 1 => { deps := [0],
           provide := none,
           bootHook := some (HookProg.push 2 (HookProg.awaitBooted 0
             (HookProg.push 4 HookProg.ret))),
           disposeHook := some (HookProg.push 2 (HookProg.awaitDisposed 0
             (HookProg.push 4 HookProg.ret))) }
  | _ => plainService

/-- Failure-propagation boot scenario: `X = 0` fails immediately with error
1, `Z = 1` fails with error 2 one tick later, `Y = 2` keeps running
(push 20, three yields, push 21), root `3` uses all three. -/
def envC5 : Env := fun c =>
  match c with
  | 0 => { plainService with
           bootHook := some (HookProg.push 10 (HookProg.throwE 1)) }
  | 1 => { plainService with
           bootHook := some (HookProg.awaitTick (HookProg.throwE 2)) }
  | 2 => { plainService with
           bootHook := some (HookProg.push 20 (HookProg.awaitTick
             (HookProg.awaitTick (HookProg.awaitTick
               (HookProg.push 21 HookProg.ret))))) }
  | 3 => { plainService with deps := [0, 1, 2] }
  | _ => plainService

/-- The same failing-hook pattern on the dispose phase (boot hooks absent). -/
def envC5d : Env := fun c =>
  match c with
  | 0 => { plainService with
           disposeHook := some (HookProg.push 10 (HookProg.throwE 1)) }
  | 1 => { plainService with
           disposeHook := some (HookProg.awaitTick (HookProg.throwE 2)) }
  | 2 => { plainService with
           disposeHook := some (HookProg.push 20 (HookProg.awaitTick
             (HookProg.awaitTick (HookProg.awaitTick
               (HookProg.push 21 HookProg.ret))))) }
  | 3 => { plainService with deps := [0, 1, 2] }
  | _ => plainService

/-- All-hooks-succeed scenario: `G = 0` pushes 30, yields, pushes 31;
`H = 1` pushes 40; root `2` uses both. -/
def envC5ok : Env := fun c =>
  match c with
  | 0 => { plainService with
           bootHook := some (HookProg.push 30 (HookProg.awaitTick
             (HookProg.push 31 HookProg.ret))) }
  | 1 => { plainService with bootHook := some (HookProg.push 40 HookProg.ret) }
  | 2 => { plainService with deps := [0, 1] }
  | _ => plainService

/-- Binding scenario: root `0` uses `Dependency = 2`; `Extended = 3` is the
override implementation. -/
def envC6 : Env := fun c =>
  match c with
  | 0 => { plainService with deps := [2] }
  | _ => plainService

/-- A provider whose `provide()` returns `undefined` (`U = 0`). -/
def envC9 : Env := fun c =>
  match c with
  | 0 => { plainService with provide := some Value.undef }
  | _ => plainService

/-- Dispose-twice scenario: `A = 0` (dispose pushes 7), `B = 1` (dispose
pushes 8), root `2` uses both. -/
def envC10 : Env := fun c =>
  match c with
  | 0 => { plainService with disposeHook := some (HookProg.push 7 HookProg.ret) }
  | 1 => { plainService with disposeHook := some (HookProg.push 8 HookProg.ret) }
  | 2 => { plainService with deps := [0, 1] }
  | _ => plainService

/-! ## Structural lemmas

The microtask machinery only ever touches the `promises`, `queue` and `log`
components of the state; the synchronous resolver only grows the heap and
never changes the class of an existing object.  These frame facts power the
general claims about `boot`, `bind` and `dispose`. -/

/-- The class of the heap object at `r`, if any. -/
def clsAt (s : S) (r : Nat) : Option (Option ClassId) :=
  (s.heap.get? r).map Obj.cls

/-- States that differ from `s` only in `promises`, `queue` and `log`. -/
def AsyncOnly (s t : S) : Prop :=
  ∃ pr q lg, t = { s with promises := pr, queue := q, log := lg }

theorem asyncOnly_refl (s : S) : AsyncOnly s s := ⟨s.promises, s.queue, s.log, rfl⟩

theorem asyncOnly_trans {s t u : S} (h1 : AsyncOnly s t) (h2 : AsyncOnly t u) :
    AsyncOnly s u := by
  obtain ⟨a, b, c, rfl⟩ := h1
  obtain ⟨a', b', c', rfl⟩ := h2
  exact ⟨a', b', c', rfl⟩

theorem newProm_asyncOnly (s : S) (st : PStat) (n : Nat) (g : Bool) :
    AsyncOnly s (newProm s st n g).2 :=
  ⟨_, _, _, rfl⟩

theorem enqueue_asyncOnly (s : S) (j : Job) : AsyncOnly s (enqueue s j) :=
  ⟨_, _, _, rfl⟩

theorem settle_asyncOnly (s : S) (p : Nat) (st : PStat) :
    AsyncOnly s (settle s p st) := by
  unfold settle
  split
  · split
    · split <;> exact ⟨_, _, _, rfl⟩
    all_goals exact asyncOnly_refl s
  · exact asyncOnly_refl s

theorem onSettled_asyncOnly (s : S) (p : Nat) (r : Reaction) :
    AsyncOnly s (onSettled s p r) := by
  unfold onSettled
  split
  · split
    · exact ⟨_, _, _, rfl⟩
    · exact enqueue_asyncOnly ..
  · exact asyncOnly_refl s

theorem bootedP_asyncOnly (s : S) (d : ClassId) : AsyncOnly s (bootedP s d).2 := by
  unfold bootedP
  split
  · exact newProm_asyncOnly ..
  · split
    · exact asyncOnly_refl s
    · exact newProm_asyncOnly ..

theorem disposedP_asyncOnly (s : S) (d : ClassId) : AsyncOnly s (disposedP s d).2 := by
  unfold disposedP
  split
  · exact newProm_asyncOnly ..
  · split
    · exact asyncOnly_refl s
    · exact newProm_asyncOnly ..

theorem runBody_asyncOnly (env : Env) (s : S) (hp : Nat) (k : HookProg) :
    AsyncOnly s (runBody env s hp k) := by
  induction k generalizing s with
  | ret => exact settle_asyncOnly ..
  | throwE e => exact settle_asyncOnly ..
  | push n k ih =>
    exact asyncOnly_trans (⟨_, _, _, rfl⟩ : AsyncOnly s _) (ih _)
  | awaitTick k ih =>
    exact asyncOnly_trans (newProm_asyncOnly ..) (onSettled_asyncOnly ..)
  | awaitBooted d k ih =>
    exact asyncOnly_trans (bootedP_asyncOnly ..) (onSettled_asyncOnly ..)
  | awaitDisposed d k ih =>
    exact asyncOnly_trans (disposedP_asyncOnly ..) (onSettled_asyncOnly ..)

theorem processJob_asyncOnly (env : Env) (s : S) (j : Job) :
    AsyncOnly s (processJob env s j) := by
  cases j with
  | thenStart target inst phase =>
    simp only [processJob]
    split
    · exact settle_asyncOnly ..
    · exact asyncOnly_trans (newProm_asyncOnly ..)
        (asyncOnly_trans (runBody_asyncOnly ..) (enqueue_asyncOnly ..))
  | thenableJob target src => exact onSettled_asyncOnly ..
  | react r st =>
    cases r with
    | resumeHook hp k =>
      cases st with
      | pending => exact asyncOnly_refl s
      | fulfilled => exact runBody_asyncOnly ..
      | rejected e => exact settle_asyncOnly ..
    | fulfillWith t => exact settle_asyncOnly ..
    | allReact t =>
      cases st with
      | rejected e => exact settle_asyncOnly ..
      | pending =>
        simp only [processJob]
        split
        · split
          · exact asyncOnly_trans (⟨_, _, _, rfl⟩ : AsyncOnly s _) (settle_asyncOnly ..)
          · exact ⟨_, _, _, rfl⟩
        · exact asyncOnly_refl s
      | fulfilled =>
        simp only [processJob]
        split
        · split
          · exact asyncOnly_trans (⟨_, _, _, rfl⟩ : AsyncOnly s _) (settle_asyncOnly ..)
          · exact ⟨_, _, _, rfl⟩
        · exact asyncOnly_refl s

theorem runQueue_asyncOnly (env : Env) (fuel : Nat) (s s' : S)
    (h : runQueue env fuel s = some s') : AsyncOnly s s' := by
  induction fuel generalizing s with
  | zero =>
    unfold runQueue at h
    split at h
    · cases h; exact asyncOnly_refl _
    · cases h
  | succ fuel ih =>
    unfold runQueue at h
    split at h
    · cases h; exact asyncOnly_refl _
    · next j rest _ =>
      have h1 : AsyncOnly s { s with queue := rest } := ⟨_, _, _, rfl⟩
      exact asyncOnly_trans h1
        (asyncOnly_trans (processJob_asyncOnly env _ j) (ih _ h))

theorem buildPhase_asyncOnly (phase : Bool) (l : List (ClassId × Value)) (s : S) :
    AsyncOnly s (buildPhase phase l s).2 := by
  induction l generalizing s with
  | nil => exact asyncOnly_refl s
  | cons hd tl ih =>
    obtain ⟨cid, inst⟩ := hd
    exact asyncOnly_trans (newProm_asyncOnly ..)
      (asyncOnly_trans (enqueue_asyncOnly ..) (ih _))

theorem subscribeAll_asyncOnly (pAll : Nat) (l : List (ClassId × Nat)) (s : S) :
    AsyncOnly s (subscribeAll pAll l s) := by
  induction l generalizing s with
  | nil => exact asyncOnly_refl s
  | cons hd tl ih =>
    obtain ⟨cid, p⟩ := hd
    exact asyncOnly_trans (onSettled_asyncOnly ..) (ih _)

/-- `buildPhase` creates exactly one phase-completion entry per cached
instance. -/
theorem buildPhase_length (phase : Bool) (l : List (ClassId × Value)) (s : S) :
    (buildPhase phase l s).1.length = l.length := by
  induction l generalizing s with
  | nil => rfl
  | cons hd tl ih =>
    obtain ⟨cid, inst⟩ := hd
    simp [buildPhase, ih]

/-- Frame of the synchronous resolver: the finalization flag is untouched,
the heap only grows, and the class of an already-allocated object never
changes. -/
def SyncFrame (s t : S) : Prop :=
  t.finalized = s.finalized ∧ s.heap.length ≤ t.heap.length ∧
    ∀ r, r < s.heap.length → clsAt t r = clsAt s r

theorem syncFrame_refl (s : S) : SyncFrame s s :=
  ⟨rfl, Nat.le_refl _, fun _ _ => rfl⟩

theorem syncFrame_trans {s t u : S} (h1 : SyncFrame s t) (h2 : SyncFrame t u) :
    SyncFrame s u := by
  obtain ⟨f1, l1, c1⟩ := h1
  obtain ⟨f2, l2, c2⟩ := h2
  exact ⟨f2.trans f1, l1.trans l2, fun r hr => (c2 r (Nat.lt_of_lt_of_le hr l1)).trans (c1 r hr)⟩

theorem appendField_heap_length (s : S) (r0 : Nat) (v : Value) :
    (appendField s r0 v).heap.length = s.heap.length := by
  unfold appendField
  split
  · simp
  · rfl

theorem appendField_finalized (s : S) (r0 : Nat) (v : Value) :
    (appendField s r0 v).finalized = s.finalized := by
  unfold appendField
  split <;> rfl

theorem appendField_clsAt (s : S) (r0 : Nat) (v : Value) (r : Nat) :
    clsAt (appendField s r0 v) r = clsAt s r := by
  unfold appendField clsAt
  split
  · next o ho =>
    have ho' : s.heap[r0]? = some o := (List.get?_eq_getElem? ..) ▸ ho
    by_cases hrr : r0 = r
    · subst hrr
      have hlt : r0 < s.heap.length := by
        by_contra hge
        rw [List.getElem?_eq_none (Nat.le_of_not_lt hge)] at ho'
        cases ho'
      simp [List.get?_eq_getElem?, List.getElem?_set_eq_of_lt _ hlt, ho']
    · simp [List.get?_eq_getElem?, List.getElem?_set_ne hrr]
  · rfl

theorem appendField_syncFrame (s : S) (r0 : Nat) (v : Value) :
    SyncFrame s (appendField s r0 v) :=
  ⟨appendField_finalized .., Nat.le_of_eq (appendField_heap_length ..).symm,
    fun r _ => appendField_clsAt ..⟩

theorem pushHeap_syncFrame (s : S) (o : Obj) :
    SyncFrame s { s with heap := s.heap ++ [o] } := by
  refine ⟨rfl, by simp, fun _r hr => ?_⟩
  unfold clsAt
  simp [List.get?_eq_getElem?, List.getElem?_append_left hr]

/-- The combined frame property of `use`, `make` and `initFields`, by
induction on the fuel. -/
theorem syncFrame_all (env : Env) : ∀ fuel : Nat,
    (∀ s D dep v s', use env fuel s D dep = some (v, s') → SyncFrame s s') ∧
    (∀ s D v s', make env fuel s D = some (v, s') → SyncFrame s s') ∧
    (∀ s r0 I ds v s',
      syncRun env fuel s (SyncCall.fieldsC r0 I ds) = some (v, s') →
        SyncFrame s s') := by
  intro fuel
  induction fuel with
  | zero =>
    refine ⟨fun s D dep v s' h => ?_, fun s D v s' h => ?_,
        fun s r0 I ds v s' h => ?_⟩ <;>
      simp [use, make, initFields, syncRun] at h
  | succ fuel ih =>
    obtain ⟨ihU, ihM, ihF⟩ := ih
    refine ⟨fun s D dep v s' h => ?_, fun s D v s' h => ?_,
        fun s r0 I ds v s' h => ?_⟩
    · -- use
      cases dep with
      | none =>
        simp only [use, syncRun] at h
        split at h
        · simp only [Option.some.injEq, Prod.mk.injEq] at h
          exact h.2 ▸ syncFrame_refl s
        · split at h
          · simp only [Option.isSome_none, Bool.false_eq_true, and_false] at *
          · split at h
            · exact absurd h (by simp)
            · next v2 s2 heq =>
              simp only [Option.some.injEq, Prod.mk.injEq] at h
              refine h.2 ▸ ?_
              exact syncFrame_trans (ihM _ _ _ _ heq) (syncFrame_refl _)
      | some d =>
        simp only [use, syncRun] at h
        split at h
        · simp only [Option.some.injEq, Prod.mk.injEq] at h
          exact h.2 ▸ syncFrame_refl s
        · split at h
          · simp only [Option.some.injEq, Prod.mk.injEq] at h
            refine h.2 ▸ ?_
            exact pushHeap_syncFrame ..
          · split at h
            · exact absurd h (by simp)
            · next v2 s2 heq =>
              simp only [Option.some.injEq, Prod.mk.injEq] at h
              refine h.2 ▸ ?_
              have hs1 : SyncFrame s { s with useStack := s.useStack ++ [d] } :=
                ⟨rfl, Nat.le_refl _, fun _ _ => rfl⟩
              have hs2 := ihM _ _ _ _ heq
              have hs3 : SyncFrame s2
                  { s2 with useStack := s2.useStack.dropLast } :=
                ⟨rfl, Nat.le_refl _, fun _ _ => rfl⟩
              exact syncFrame_trans hs1 (syncFrame_trans hs2
                (syncFrame_trans hs3 ⟨rfl, Nat.le_refl _, fun _ _ => rfl⟩))
    · -- make
      simp only [make, syncRun] at h
      split at h
      · exact absurd h (by simp)
      · next s2 heq =>
        simp only [Option.some.injEq, Prod.mk.injEq] at h
        refine h.2 ▸ ?_
        have h1 : SyncFrame s
            { s with heap := s.heap ++ [⟨some ((mapGet s.bindings D).getD D), []⟩] } :=
          pushHeap_syncFrame ..
        have h2 := ihF _ _ _ _ _ _ heq
        exact syncFrame_trans h1 (syncFrame_trans h2 ⟨rfl, Nat.le_refl _, fun _ _ => rfl⟩)
    · -- initFields
      cases ds with
      | nil =>
        simp only [syncRun, Option.some.injEq, Prod.mk.injEq] at h
        exact h.2 ▸ syncFrame_refl s
      | cons d ds =>
        simp only [syncRun] at h
        split at h
        · exact absurd h (by simp)
        · next v1 s1 heq =>
          have h1 := ihU _ _ _ _ _ heq
          have h2 : SyncFrame s1 (appendField s1 r0 v1) := appendField_syncFrame ..
          have h3 := ihF _ _ _ _ _ _ h
          exact syncFrame_trans h1 (syncFrame_trans h2 h3)

theorem asyncOnly_finalized {s t : S} (h : AsyncOnly s t) :
    t.finalized = s.finalized := by
  obtain ⟨a, b, c, rfl⟩ := h
  rfl

theorem asyncOnly_disposedPromises {s t : S} (h : AsyncOnly s t) :
    t.disposedPromises = s.disposedPromises := by
  obtain ⟨a, b, c, rfl⟩ := h
  rfl

theorem resolveCircularStep_finalized (s : S) (u : UC) :
    (resolveCircularStep s u).finalized = s.finalized := by
  unfold resolveCircularStep
  split
  · split <;> rfl
  · rfl

theorem foldl_resolveCircularStep_finalized (l : List UC) :
    ∀ s : S, (List.foldl resolveCircularStep s l).finalized = s.finalized := by
  induction l with
  | nil => intro s; rfl
  | cons u l ih =>
    intro s
    calc (List.foldl resolveCircularStep (resolveCircularStep s u) l).finalized
        = (resolveCircularStep s u).finalized := ih _
      _ = s.finalized := resolveCircularStep_finalized ..

theorem resolveCircular_finalized (s : S) :
    (resolveCircular s).finalized = s.finalized := by
  unfold resolveCircular
  exact foldl_resolveCircularStep_finalized ..

theorem bootAllStart_finalized (s : S) :
    ((bootAllStart s).2).finalized = s.finalized := by
  unfold bootAllStart
  dsimp only
  have h1 : ∀ t : S, t.finalized = s.finalized → ∀ u : S, AsyncOnly t u →
      u.finalized = s.finalized :=
    fun t ht u hu => (asyncOnly_finalized hu).trans ht
  have hb := asyncOnly_finalized (buildPhase_asyncOnly false s.instances s)
  split
  · refine h1 _ ?_ _ (settle_asyncOnly ..)
    refine h1 _ ?_ _ (subscribeAll_asyncOnly ..)
    refine h1 _ ?_ _ (newProm_asyncOnly ..)
    exact hb
  · refine h1 _ ?_ _ (subscribeAll_asyncOnly ..)
    refine h1 _ ?_ _ (newProm_asyncOnly ..)
    exact hb

theorem disposeStart_disposedPromises (s : S) :
    ((disposeStart s).2).disposedPromises = some (buildPhase true s.instances s).1 := by
  unfold disposeStart
  dsimp only
  have h1 : ∀ t : S, t.disposedPromises = some (buildPhase true s.instances s).1 →
      ∀ u : S, AsyncOnly t u → u.disposedPromises = some (buildPhase true s.instances s).1 :=
    fun t ht u hu => (asyncOnly_disposedPromises hu).trans ht
  split
  · refine h1 _ ?_ _ (settle_asyncOnly ..)
    refine h1 _ ?_ _ (subscribeAll_asyncOnly ..)
    refine h1 _ ?_ _ (newProm_asyncOnly ..)
    rfl
  · refine h1 _ ?_ _ (subscribeAll_asyncOnly ..)
    refine h1 _ ?_ _ (newProm_asyncOnly ..)
    rfl

/-! ## The claims -/

/-- C3: whenever a provider identity has a cached (defined) instance, `use`
returns that identical instance and leaves the container untouched — no
constructor runs, no map or stack mutates; in particular two `use` calls
with the same identity return the same instance. -/
theorem claim_C3 (env : Env) (fuel : Nat) (s : S) (D : ClassId)
    (dep : Option ClassId) (v : Value)
    (hv : mapGet s.instances D = some v) (hne : v ≠ Value.undef) :
    use env (fuel + 1) s D dep = some (v, s) := by
  cases dep <;> simp [use, syncRun, hv, hne]

/-- Witness for C3 at a concrete container with a cached instance. -/
theorem claim_C3_witness :
    (mapGet ({ init with instances := [(0, Value.prim 5)] } : S).instances 0 =
        some (Value.prim 5) ∧ Value.prim 5 ≠ Value.undef) ∧
      use envC1 1 { init with instances := [(0, Value.prim 5)] } 0 none =
        some (Value.prim 5, { init with instances := [(0, Value.prim 5)] }) :=
  ⟨⟨by decide, by decide⟩,
    claim_C3 envC1 0 { init with instances := [(0, Value.prim 5)] } 0 none
      (Value.prim 5) (by decide) (by decide)⟩

/-- C4: `use` on an uncached identity that is on the resolution stack, with
a requester supplied, returns a fresh empty placeholder object, appends
`{placeholder, requester, requested}` to the pending-circular list, and does
not touch the instance cache. -/
theorem claim_C4 (env : Env) (fuel : Nat) (s : S) (D d : ClassId)
    (h1 : (mapGet s.instances D).getD Value.undef = Value.undef)
    (h2 : D ∈ s.useStack) :
    use env (fuel + 1) s D (some d) =
      some (Value.obj s.heap.length,
        { s with heap := s.heap ++ [⟨none, []⟩],
                 unresolvedCircular := s.unresolvedCircular ++
                   [⟨Value.obj s.heap.length, d, D⟩] }) := by
  simp [use, syncRun, h1, h2]

/-- Witness for C4: a concrete cycle detection handing out placeholder
object `0` on an empty heap. -/
theorem claim_C4_witness :
    ((mapGet ({ init with useStack := [7] } : S).instances 7).getD Value.undef =
        Value.undef ∧ 7 ∈ ({ init with useStack := [7] } : S).useStack) ∧
      use envC1 4 { init with useStack := [7] } 7 (some 9) =
        some (Value.obj 0,
          { init with useStack := [7], heap := [⟨none, []⟩],
                      unresolvedCircular := [⟨Value.obj 0, 9, 7⟩] }) :=
  ⟨⟨by decide, by decide⟩,
    claim_C4 envC1 3 { init with useStack := [7] } 7 9 (by decide) (by decide)⟩

/-- C8: `booted(D)` yields a rejected promise exactly in the two misuse
cases — no boot phase table (*PhaseNotActive*) or an identity absent from
the table (*UnusedDependency*) — and otherwise returns `D`'s
phase-completion promise unchanged; `disposed(D)` obeys the same rule for
the dispose phase. -/
theorem claim_C8 (s : S) (D : ClassId) :
    (s.bootedPromises = none →
      promStat (bootedP s D).2 (bootedP s D).1 =
        PStat.rejected errPhaseNotActive) ∧
    (∀ tbl, s.bootedPromises = some tbl → mapGet tbl D = none →
      promStat (bootedP s D).2 (bootedP s D).1 =
        PStat.rejected errUnusedDependency) ∧
    (∀ tbl p, s.bootedPromises = some tbl → mapGet tbl D = some p →
      bootedP s D = (p, s)) ∧
    (s.disposedPromises = none →
      promStat (disposedP s D).2 (disposedP s D).1 =
        PStat.rejected errPhaseNotActive) ∧
    (∀ tbl, s.disposedPromises = some tbl → mapGet tbl D = none →
      promStat (disposedP s D).2 (disposedP s D).1 =
        PStat.rejected errUnusedDependency) ∧
    (∀ tbl p, s.disposedPromises = some tbl → mapGet tbl D = some p →
      disposedP s D = (p, s)) := by
  refine ⟨?_, ?_, ?_, ?_, ?_, ?_⟩
  · intro h
    simp [bootedP, h, newProm, promStat, List.get?_eq_getElem?,
      List.getElem?_concat_length]
  · intro tbl h hm
    simp [bootedP, h, hm, newProm, promStat, List.get?_eq_getElem?,
      List.getElem?_concat_length]
  · intro tbl p h hm
    simp [bootedP, h, hm]
  · intro h
    simp [disposedP, h, newProm, promStat, List.get?_eq_getElem?,
      List.getElem?_concat_length]
  · intro tbl h hm
    simp [disposedP, h, hm, newProm, promStat, List.get?_eq_getElem?,
      List.getElem?_concat_length]
  · intro tbl p h hm
    simp [disposedP, h, hm]

/-- Witness for C8 at concrete states exercising all six cases. -/
theorem claim_C8_witness :
    (promStat (bootedP init 0).2 (bootedP init 0).1 =
        PStat.rejected errPhaseNotActive ∧
      promStat (disposedP init 0).2 (disposedP init 0).1 =
        PStat.rejected errPhaseNotActive) ∧
    (promStat (bootedP { init with bootedPromises := some [] } 0).2
        (bootedP { init with bootedPromises := some [] } 0).1 =
        PStat.rejected errUnusedDependency) ∧
    (bootedP { init with bootedPromises := some [(0, 4)] } 0 =
        (4, { init with bootedPromises := some [(0, 4)] })) ∧
    (disposedP { init with disposedPromises := some [(0, 4)] } 0 =
        (4, { init with disposedPromises := some [(0, 4)] })) :=
  ⟨⟨(claim_C8 init 0).1 rfl, (claim_C8 init 0).2.2.2.1 rfl⟩,
    (claim_C8 { init with bootedPromises := some [] } 0).2.1 [] rfl (by decide),
    (claim_C8 { init with bootedPromises := some [(0, 4)] } 0).2.2.1
      [(0, 4)] 4 rfl (by decide),
    (claim_C8 { init with disposedPromises := some [(0, 4)] } 0).2.2.2.2.2
      [(0, 4)] 4 rfl (by decide)⟩

/-- C9: a provider whose `provide()` returns `undefined` is never
effectively cached: the cache lookup in `use` treats `undefined` as
absence, so every such call constructs a fresh provider object (a new heap
allocation) and invokes `provide()` again, and merely re-stores
`undefined`. -/
theorem claim_C9 (env : Env) (fuel : Nat) (s : S) (U : ClassId)
    (hdeps : (env U).deps = [])
    (hprov : (env U).provide = some Value.undef)
    (hbind : mapGet s.bindings U = none)
    (hinst : (mapGet s.instances U).getD Value.undef = Value.undef) :
    use env (fuel + 3) s U none =
      some (Value.undef,
        { s with heap := s.heap ++ [⟨some U, []⟩],
                 instances := mapSet s.instances U Value.undef,
                 instanceProviders :=
                   mapSet s.instanceProviders Value.undef
                     (Value.obj s.heap.length) }) := by
  rw [show fuel + 3 = fuel + 1 + 1 + 1 from rfl]
  simp [use, make, initFields, syncRun, hdeps, hprov, hbind, hinst]

/-- Witness for C9: two consecutive `use` calls on a fresh container each
allocate a new provider object (heap indices 0 then 1). -/
theorem claim_C9_witness :
    use envC9 3 init 0 none =
      some (Value.undef,
        { init with heap := [⟨some 0, []⟩],
                    instances := [(0, Value.undef)],
                    instanceProviders := [(Value.undef, Value.obj 0)] }) ∧
    use envC9 3
      { init with heap := [⟨some 0, []⟩],
                  instances := [(0, Value.undef)],
                  instanceProviders := [(Value.undef, Value.obj 0)] } 0 none =
      some (Value.undef,
        { init with heap := [⟨some 0, []⟩, ⟨some 0, []⟩],
                    instances := [(0, Value.undef)],
                    instanceProviders := [(Value.undef, Value.obj 1)] }) := by
  constructor
  · exact claim_C9 envC9 0 init 0 rfl rfl rfl rfl
  · have h := claim_C9 envC9 0
      { init with heap := [⟨some 0, []⟩],
                  instances := [(0, Value.undef)],
                  instanceProviders := [(Value.undef, Value.obj 0)] } 0
      rfl rfl rfl (by decide)
    simpa using h

/-- C1: after `boot` of a root with mutually dependent sibling services
`A = 0` and `B = 1`, the field of `A` referencing `B` and the field of `B`
referencing `A` hold the other's real cached instance (an object of the
right class, not a placeholder), whichever of the two was constructed
first; and `resolveCircular` always leaves the pending-circular list
empty. -/
theorem claim_C1 :
    (∀ s : S, (resolveCircular s).unresolvedCircular = []) ∧
    ((boot envC1 100 init 2).map (fun p => instOf p.1 0) =
        some (some (Value.obj 1)) ∧
      (boot envC1 100 init 2).map (fun p => instOf p.1 1) =
        some (some (Value.obj 2)) ∧
      (boot envC1 100 init 2).map (fun p => instField p.1 0 0) =
        some (some (Value.obj 2)) ∧
      (boot envC1 100 init 2).map (fun p => instField p.1 1 0) =
        some (some (Value.obj 1)) ∧
      (boot envC1 100 init 2).map (fun p => instCls p.1 0) =
        some (some (some 0)) ∧
      (boot envC1 100 init 2).map (fun p => instCls p.1 1) =
        some (some (some 1)) ∧
      (boot envC1 100 init 2).map (fun p => p.1.unresolvedCircular) =
        some []) ∧
    ((boot envC1r 100 init 2).map (fun p => instOf p.1 0) =
        some (some (Value.obj 2)) ∧
      (boot envC1r 100 init 2).map (fun p => instOf p.1 1) =
        some (some (Value.obj 1)) ∧
      (boot envC1r 100 init 2).map (fun p => instField p.1 0 0) =
        some (some (Value.obj 1)) ∧
      (boot envC1r 100 init 2).map (fun p => instField p.1 1 0) =
        some (some (Value.obj 2)) ∧
      (boot envC1r 100 init 2).map (fun p => instCls p.1 0) =
        some (some (some 0)) ∧
      (boot envC1r 100 init 2).map (fun p => instCls p.1 1) =
        some (some (some 1)) ∧
      (boot envC1r 100 init 2).map (fun p => p.1.unresolvedCircular) =
        some []) := by
  refine ⟨fun _ => rfl, ⟨?_, ?_, ?_, ?_, ?_, ?_, ?_⟩, ⟨?_, ?_, ?_, ?_, ?_, ?_, ?_⟩⟩ <;>
    decide

/-- C2: with `D`'s boot hook pushing 1, yielding twice, pushing 3 and `P`'s
boot hook pushing 2, awaiting `booted(D)`, pushing 4, one `boot(P)` records
exactly [1, 2, 3, 4]; the same law holds for the dispose hooks with
`disposed(D)`. -/
theorem claim_C2 :
    ((boot envC2 100 init 1).map (fun p => pushes p.1.log) =
      some [1, 2, 3, 4]) ∧
    ((boot envC2 100 init 1).bind (fun p =>
        (dispose envC2 100 p.1).map (fun q => pushes q.1.log)) =
      some [1, 2, 3, 4, 1, 2, 3, 4]) := by
  constructor <;> decide

/-- C5: a failing boot hook makes the whole `boot` reject with the first
failure (error 1 here, not the later error 2), while a sibling hook keeps
running to completion after the aggregate has rejected (its final push 21
lands after the aggregate settlement in the log); symmetrically for
`dispose`; and on success the aggregate settles only after every hook has
finished. -/
theorem claim_C5 :
    (outcome (boot envC5 100 init 3) =
        some (Except.error (Err.hookFailure 1)) ∧
      (boot envC5 100 init 3).map (fun p => p.1.log) =
        some [Event.push 10, Event.push 20,
              Event.aggSettled (PStat.rejected 1), Event.push 21]) ∧
    ((boot envC5d 100 init 3).bind (fun p =>
        (dispose envC5d 100 p.1).map (fun q => q.2)) =
        some (Except.error (Err.hookFailure 1)) ∧
      (boot envC5d 100 init 3).bind (fun p =>
        (dispose envC5d 100 p.1).map (fun q => q.1.log)) =
        some [Event.aggSettled PStat.fulfilled, Event.push 10, Event.push 20,
              Event.aggSettled (PStat.rejected 1), Event.push 21]) ∧
    ((boot envC5ok 100 init 2).map (fun p => p.2) =
        some (Except.ok (Value.obj 0)) ∧
      (boot envC5ok 100 init 2).map (fun p => p.1.log) =
        some [Event.push 30, Event.push 40, Event.push 31,
              Event.aggSettled PStat.fulfilled]) := by
  refine ⟨⟨?_, ?_⟩, ⟨?_, ?_⟩, ⟨?_, ?_⟩⟩ <;> decide

/-- C6: `bind` fails with *AlreadyInstantiated* exactly when the provider
identity already has a cached instance, otherwise records the override in
the binding table; and any construction via `make` instantiates the bound
override (or the requested identity itself when unbound), as witnessed by
the class of the allocated provider object. -/
theorem claim_C6 :
    (∀ (s : S) (P I : ClassId), mapHas s.instances P = true →
      bind s P I = Except.error Err.alreadyInstantiated) ∧
    (∀ (s : S) (P I : ClassId), mapHas s.instances P = false →
      bind s P I = Except.ok { s with bindings := mapSet s.bindings P I }) ∧
    (∀ (env : Env) (fuel : Nat) (s : S) (D : ClassId) (v : Value) (s' : S),
      make env fuel s D = some (v, s') →
      clsAt s' s.heap.length = some (some ((mapGet s.bindings D).getD D))) ∧
    ((bind init 2 3).toOption.bind (fun s0 =>
        (boot envC6 100 s0 0).map (fun p => instCls p.1 2)) =
      some (some (some 3)) ∧
    (bind init 2 3).toOption.bind (fun s0 =>
        (boot envC6 100 s0 0).map (fun p => bind p.1 2 3)) =
      some (Except.error Err.alreadyInstantiated)) := by
  refine ⟨?_, ?_, ?_, by decide, by decide⟩
  · intro s P I h
    simp [bind, h]
  · intro s P I h
    simp [bind, h]
  · intro env fuel s D v s' h
    cases fuel with
    | zero => simp [make, syncRun] at h
    | succ fuel =>
      simp only [make, syncRun] at h
      split at h
      · exact absurd h (by simp)
      · next s2 heq =>
        simp only [Option.some.injEq, Prod.mk.injEq] at h
        obtain ⟨-, rfl⟩ := h
        have hfr := ((syncFrame_all env fuel).2.2) _ _ _ _ _ _ heq
        have hlen : s.heap.length <
            (s.heap ++ [(⟨some ((mapGet s.bindings D).getD D), []⟩ : Obj)]).length := by
          simp
        have hcls := hfr.2.2 s.heap.length hlen
        have hbase : clsAt
            { s with heap :=
                s.heap ++ [(⟨some ((mapGet s.bindings D).getD D), []⟩ : Obj)] }
            s.heap.length = some (some ((mapGet s.bindings D).getD D)) := by
          unfold clsAt
          simp [List.get?_eq_getElem?, List.getElem?_concat_length]
        exact hcls.trans hbase

/-- The provider object allocated by a concrete `make` call on the fresh
container. -/
def sC6m : S :=
  { init with heap := [⟨some 2, []⟩],
              instanceProviders := [(Value.obj 0, Value.obj 0)] }

/-- Witness for C6: a cached identity rejects `bind`; a fresh one records
the override; an unbound `make` constructs the identity itself. -/
theorem claim_C6_witness :
    (mapHas ({ init with instances := [(2, Value.prim 1)] } : S).instances 2 = true ∧
      bind { init with instances := [(2, Value.prim 1)] } 2 3 =
        Except.error Err.alreadyInstantiated) ∧
    (bind init 2 3 = Except.ok { init with bindings := [(2, 3)] }) ∧
    (make envC6 3 init 2 = some (Value.obj 0, sC6m) ∧
      clsAt sC6m 0 = some (some 2)) :=
  ⟨⟨by decide, claim_C6.1 _ 2 3 (by decide)⟩,
    claim_C6.2.1 init 2 3 (by decide),
    ⟨by decide, claim_C6.2.2.1 envC6 3 init 2 (Value.obj 0) sC6m (by decide)⟩⟩

/-- C7: a second `boot` call on an already-finalized container returns the
*AlreadyFinalized* error with the container state untouched — no resolution
and no hooks run; and every completed `boot` leaves the container
finalized, so this applies to any container booted once. -/
theorem claim_C7 :
    (∀ (env : Env) (fuel : Nat) (s : S) (Root : ClassId), s.finalized = true →
      boot env fuel s Root = some (s, Except.error Err.alreadyFinalized)) ∧
    (∀ (env : Env) (fuel : Nat) (s : S) (Root : ClassId) (s' : S)
        (r : Except Err Value), boot env fuel s Root = some (s', r) →
      s'.finalized = true) := by
  constructor
  · intro env fuel s Root h
    simp [boot, h]
  · intro env fuel s Root s' r h
    unfold boot at h
    by_cases hf : s.finalized
    · rw [if_pos hf] at h
      simp only [Option.some.injEq, Prod.mk.injEq] at h
      exact h.1 ▸ hf
    · rw [if_neg hf] at h
      split at h
      · exact absurd h (by simp)
      · next v s1 hequse =>
        have h1 : s1.finalized = true :=
          (((syncFrame_all env fuel).1) _ _ _ _ _ hequse).1
        dsimp only at h
        split at h
        · exact absurd h (by simp)
        · next s4 heqQ =>
          have h4 : s4.finalized = true := by
            rw [asyncOnly_finalized (runQueue_asyncOnly _ _ _ _ heqQ),
              bootAllStart_finalized, resolveCircular_finalized]
            exact h1
          split at h
          · simp only [Option.some.injEq, Prod.mk.injEq] at h
            exact h.1 ▸ h4
          · simp only [Option.some.injEq, Prod.mk.injEq] at h
            exact h.1 ▸ h4
          · exact absurd h (by simp)

/-- The state of a container after one successful concrete boot. -/
def sC7 : S :=
  ((boot envC1 100 init 2).getD (init, Except.error Err.alreadyFinalized)).1

/-- Witness for C7: a once-booted container is finalized, and booting it
again yields *AlreadyFinalized* with the state unchanged. -/
theorem claim_C7_witness :
    sC7.finalized = true ∧
      boot envC1 100 sC7 2 = some (sC7, Except.error Err.alreadyFinalized) :=
  ⟨by decide, claim_C7.1 envC1 100 sC7 2 (by decide)⟩

/-- C10: `dispose` is unguarded and not idempotent: every call rebuilds the
dispose phase table with one fresh completion promise per cached instance
and reruns every dispose hook, so two `dispose` calls run every hook
twice. -/
theorem claim_C10 :
    ((boot envC10 100 init 2).bind (fun p =>
        (dispose envC10 100 p.1).bind (fun q =>
          (dispose envC10 100 q.1).map (fun w => pushes w.1.log))) =
      some [7, 8, 7, 8]) ∧
    (∀ s : S, ((disposeStart s).2.disposedPromises).map List.length =
      some s.instances.length) := by
  refine ⟨by decide, fun s => ?_⟩
  rw [disposeStart_disposedPromises]
  simp [buildPhase_length]

end Roboot
